import Mathlib

/-!
Verification of the ecdysis command-composition library (ConduitIO/ecdysis).

The development shallowly embeds the two core subsystems:
* the reflection-driven flag descriptor builder (`flags.go`),
* the layered configuration resolver (`config.go`, built on viper), and
* the capability-decorator pipeline (`ecdysis.go`, `decorators.go`).

Go machine values that can appear as flag defaults or configuration values
are modelled by `Value`; Go runtime types by `GoType`; reflected struct
values (with their struct tags) by the nested inductive `RValue`/`RField`.
Fallible Go code (panics, returned errors) is modelled with `Except`/`Option`.
-/

set_option maxRecDepth 10000

namespace Ecdysis

/-- A dynamic Go value, as far as the configuration layer observes it. -/
inductive Value where
  | vInt (i : Int)
  | vStr (s : String)
  | vBool (b : Bool)
deriving DecidableEq, Repr

/-- A Go runtime type: a named type or a pointer type. -/
inductive GoType where
  | named (n : String)
  | ptrTo (t : GoType)
deriving DecidableEq, Repr

mutual
/-- A reflected Go value: a base value, a (possibly nil) pointer, or a struct
with an ordered field list. Mirrors what `reflect.Value` exposes to
`buildFlagsRecursive` and `setDefaults`. -/
inductive RValue where
  | base (v : Value)
  | ptr (o : Option RValue)
  | strct (fields : List RField)

/-- A struct field: its tag list (key/value pairs, as in `reflect.StructTag`)
together with the field value. -/
inductive RField where
  | mk (tags : List (String × String)) (val : RValue)
end

/-- Go `reflect.StructTag.Get`: the value of the tag, or "" when absent. -/
def tagGet (tags : List (String × String)) (k : String) : String :=
  (tags.lookup k).getD ""

/-- Go `reflect.StructTag.Lookup` presence check, as used by `hasTag` in
`flags.go`: true when the tag KEY is present, even with an empty value. -/
def hasTagL (tags : List (String × String)) (k : String) : Bool :=
  (tags.lookup k).isSome

/-- Go `strconv.ParseBool`: the exact set of accepted literals. -/
def parseBoolGo (s : String) : Option Bool :=
  if s = "1" ∨ s = "t" ∨ s = "T" ∨ s = "true" ∨ s = "TRUE" ∨ s = "True" then some true
  else if s = "0" ∨ s = "f" ∨ s = "F" ∨ s = "false" ∨ s = "FALSE" ∨ s = "False" then some false
  else none

/-- A flag descriptor (`Flag` in `flags.go`). `ptrVal` stands for the `Ptr`
write-target reference: in the pure model we record the referenced field
value. `default` is `Option` because the Go field holds `any` (nil = unset). -/
structure Flag where
  long : String
  short : String
  usage : String
  required : Bool
  persistent : Bool
  default : Option Value
  ptrVal : RValue
  hidden : Bool

/-- Reading a boolean-valued tag in `buildFlag`: absent means false, a
present value must satisfy `strconv.ParseBool` or the build errors, naming
the offending tag. -/
def parseTagBool (tags : List (String × String)) (k : String) : Except String Bool :=
  match tags.lookup k with
  | none => .ok false
  | some v =>
    match parseBoolGo v with
    | some b => .ok b
    | none => .error ("error parsing tag \"" ++ k ++ "\"")

/-- `buildFlag` from `flags.go`: reads the tag vocabulary off one struct
field; boolean-valued tags that fail to parse are an error, checked in the
source's order (`required`, then `persistent`, then `hidden`). -/
def buildFlag (tags : List (String × String)) (val : RValue) : Except String Flag :=
  match parseTagBool tags "required" with
  | .error e => .error e
  | .ok required =>
    match parseTagBool tags "persistent" with
    | .error e => .error e
    | .ok persistent =>
      match parseTagBool tags "hidden" with
      | .error e => .error e
      | .ok hidden =>
        .ok { long := tagGet tags "long", short := tagGet tags "short",
              usage := tagGet tags "usage", required := required,
              persistent := persistent, default := none, ptrVal := val,
              hidden := hidden }

/-- `buildFlagsRecursive` from `flags.go`: walks the fields in declaration
order; a field with a `short` or `long` tag yields one descriptor, an
untagged struct field is recursed into and its descriptors spliced in at
that position, any other untagged field is skipped. A `buildFlag` error
(a Go panic) aborts the whole build. -/
def buildFlagsRecursive : List RField → Except String (List Flag)
  | [] => .ok []
  | (.mk tags val) :: rest =>
    if hasTagL tags "short" || hasTagL tags "long" then
      match buildFlag tags val with
      | .error e => .error e
      | .ok fl =>
        match buildFlagsRecursive rest with
        | .error e => .error e
        | .ok fs => .ok (fl :: fs)
    else
      match val with
      | .strct gs =>
        match buildFlagsRecursive gs with
        | .error e => .error e
        | .ok emb =>
          match buildFlagsRecursive rest with
          | .error e => .error e
          | .ok fs => .ok (emb ++ fs)
      | .base _ => buildFlagsRecursive rest
      | .ptr _ => buildFlagsRecursive rest

/-- `BuildFlags` from `flags.go`: requires a pointer to a struct; any other
shape panics (modelled as an error). -/
def BuildFlags : RValue → Except String (List Flag)
  | .ptr (some (.strct fields)) => buildFlagsRecursive fields
  | .ptr _ => .error "expected a struct"
  | _ => .error "expected a pointer"

/-! ## The layered configuration resolver (`config.go` + the viper contract)

`ParseConfig` delegates the merge itself to spf13/viper; the embedding
therefore includes a model of the viper operations the code uses:
`SetDefault`, `AutomaticEnv` with `SetEnvPrefix`/`SetEnvKeyReplacer`,
`SetConfigFile`/`ReadInConfig`, `BindPFlag`, and the documented lookup
precedence of `Viper.Get` (overrides, then changed pflags, then env, then
config file, then defaults, then the bound pflags' default values). -/

/-- A cobra/pflag flag as viper's `BindPFlag` sees it: its name, whether the
user actually supplied it (`Changed`), its live value and its default. -/
structure FlagB where
  name : String
  changed : Bool
  value : Value
  defValue : Value
deriving DecidableEq, Repr

/-- Outcome of reading the config file (`viper.ReadInConfig` plus the
underlying filesystem): the file is absent, unreadable/malformed, or decodes
to a key/value document. -/
inductive ReadResult where
  | notExist (msg : String)
  | failed (msg : String)
  | okData (data : List (String × Value))
deriving Repr

/-- Map-assignment insert (last write wins), as viper's `SetDefault` does. -/
def insertKV (l : List (String × Value)) (k : String) (x : Value) :
    List (String × Value) :=
  match l with
  | [] => [(k, x)]
  | (k1, x1) :: rest => if k1 = k then (k, x) :: rest else (k1, x1) :: insertKV rest k x

mutual
/-- `setDefaults` from `config.go`: dereference a non-nil pointer, then walk
the struct fields. Anything that is not (a pointer to) a struct registers
nothing. The accumulator is the viper defaults map. -/
def setDefaultsV (acc : List (String × Value)) : RValue → List (String × Value)
  | .base _ => acc
  | .ptr none => acc
  | .ptr (some inner) =>
    match inner with
    | .strct fields => setDefaultsFields acc fields
    | _ => acc
  | .strct fields => setDefaultsFields acc fields

/-- The per-field loop of `setDefaults`: the key is the `long` tag value,
falling back to `short`; untagged fields are skipped BEFORE the kind switch,
structs and non-nil pointers recurse, other kinds register the field value. -/
def setDefaultsFields (acc : List (String × Value)) :
    List RField → List (String × Value)
  | [] => acc
  | (.mk tags val) :: rest =>
    let fieldName := let n := tagGet tags "long"; if n = "" then tagGet tags "short" else n
    let acc1 :=
      if fieldName = "" then acc
      else
        match val with
        | .strct _ => setDefaultsV acc val
        | .ptr none => acc
        | .ptr (some _) => setDefaultsV acc val
        | .base bv => insertKV acc fieldName bv
    setDefaultsFields acc1 rest
end

/-- The `Config` struct of `config.go`. `parsedType` is the dynamic type of
the `Parsed` field (an `any` expected to be a pointer); `dest` is the struct
value behind that pointer, flattened to its keyed fields, which `Unmarshal`
writes into. -/
structure ConfigM where
  envPfx : String
  parsedType : GoType
  defaultValuesType : GoType
  defaultValues : RValue
  path : String
  dest : List (String × Value)

/-- The environment-variable key viper looks up under `AutomaticEnv`:
upper-case `PREFIX_key`, with `.` and `-` replaced by `_` by the key
replacer installed in `bindViperConfig`. -/
def mkEnvKey (pfx key : String) : String :=
  ((pfx ++ "_" ++ key).toUpper).map fun c => if c = '.' ∨ c = '-' then '_' else c

/-- The viper instance state assembled by `ParseConfig`. -/
structure ViperState where
  envPfx : String
  defaults : List (String × Value)
  config : List (String × Value)
  bound : List FlagB
  env : List (String × String)

/-- Plain constructor for a viper state, used to state lookup lemmas. -/
def mkViper (pfx : String) (defaults cfgd : List (String × Value))
    (bound : List FlagB) (env : List (String × String)) : ViperState :=
  { envPfx := pfx, defaults := defaults, config := cfgd, bound := bound,
    env := env }

/-- Environment lookup for a configuration key under `AutomaticEnv`. -/
def envVal (v : ViperState) (key : String) : Option Value :=
  (v.env.lookup (mkEnvKey v.envPfx key)).map .vStr

/-- The sources below changed pflags in viper's `find`: env, then config
file, then registered defaults. -/
def findCore (v : ViperState) (key : String) : Option Value :=
  match envVal v key with
  | some x => some x
  | none =>
    match v.config.lookup key with
    | some x => some x
    | none => v.defaults.lookup key

/-- Viper's `Get`/`find` lookup on the state `ParseConfig` builds: a bound
flag that the user changed wins; otherwise env, config file, defaults; an
unchanged bound flag finally supplies its default value. -/
def ViperState.find (v : ViperState) (key : String) : Option Value :=
  match v.bound.find? (fun f => f.name = key) with
  | some f =>
    if f.changed then some f.value
    else
      match findCore v key with
      | some x => some x
      | none => some f.defValue
  | none => findCore v key

/-- The effective config-file path of `bindViperConfig`: the environment
variable `PREFIX_CONFIG_PATH` overrides the static path when set non-empty
(Go `os.Getenv` returns "" when the variable is unset). -/
def effectivePath (envPfx path : String) (env : List (String × String)) : String :=
  match env.lookup (envPfx ++ "_CONFIG_PATH") with
  | some p => if p = "" then path else p
  | none => path

/-- `bindViperConfig` from `config.go`: installs env handling, resolves the
effective path, reads the config file — a missing file is tolerated, any
other read error is fatal — and binds every registered flag. `BindPFlag`
only fails on a nil flag, which `VisitAll` never passes, so the
`errors.Join` of the binding loop is always nil. -/
def bindViperConfig (v : ViperState) (cfg : ConfigM) (cmdFlags : List FlagB)
    (env : List (String × String)) (fsRead : String → ReadResult) :
    Except String ViperState :=
  let v1 : ViperState := { v with envPfx := cfg.envPfx, env := env }
  let path := effectivePath cfg.envPfx cfg.path env
  match fsRead path with
  | .failed e => .error ("fatal error config file: " ++ e)
  | .notExist _ => .ok { v1 with bound := cmdFlags }
  | .okData d => .ok { v1 with config := d, bound := cmdFlags }

/-- `viper.Unmarshal` restricted to what the code relies on: every field of
the destination struct whose key resolves in the merged view is overwritten
with the resolved value; a field resolving nowhere keeps its old value. -/
def unmarshalDest (v : ViperState) (dest : List (String × Value)) :
    List (String × Value) :=
  dest.map fun p => (p.1, (v.find p.1).getD p.2)

/-- Is a Go type a pointer type (`reflect.Kind() == reflect.Ptr`)? -/
def isPtrType : GoType → Bool
  | .ptrTo _ => true
  | .named _ => false

/-- `ParseConfig` from `config.go`: validate that `Parsed` is a pointer and
that its element type equals the type of `DefaultValues`; then register
defaults, run `bindViperConfig`, and unmarshal the merged view into the
destination. The result pairs the returned error (if any) with the
destination value after the call. -/
def ParseConfig (cfg : ConfigM) (cmdFlags : List FlagB)
    (env : List (String × String)) (fsRead : String → ReadResult) :
    Option String × List (String × Value) :=
  match cfg.parsedType with
  | .ptrTo elemT =>
    if elemT = cfg.defaultValuesType then
      let v0 : ViperState :=
        { envPfx := "", defaults := setDefaultsV [] cfg.defaultValues,
          config := [], bound := [], env := [] }
      match bindViperConfig v0 cfg cmdFlags env fsRead with
      | .error e => (some ("error parsing config: " ++ e), cfg.dest)
      | .ok v => (none, unmarshalDest v cfg.dest)
    else (some "parsed and defaultValues must be the same type", cfg.dest)
  | .named _ => (some "parsed must be a pointer", cfg.dest)

/-! ## The decorator pipeline (`ecdysis.go`) -/

/-- A command value, as far as `BuildCobraCommand` itself reads it: only its
usage string (capabilities are probed by the individual decorators). -/
structure CmdValM where
  usage : String

/-- The in-progress cobra command object of the pipeline model. Decorator
mutations are abstracted as whole-object updates performed by the
decorator functions. -/
structure CobraCmdM where
  use : String
deriving DecidableEq, Repr

/-- A decorator as `BuildCobraCommand` consumes it: its Go type identity
(what `%T` prints) and its `Decorate` function, which may mutate the
in-progress command or fail. -/
structure DecoratorF where
  tyName : String
  run : CobraCmdM → CmdValM → Except String CobraCmdM

/-- The wrapping `BuildCobraCommand` applies to a failing decorator's error:
`fmt.Errorf("failed to decorate command with %T: %w", d, err)`. -/
def wrapDecErr (tyName msg : String) : String :=
  "failed to decorate command with " ++ tyName ++ ": " ++ msg

/-- The decoration loop of `BuildCobraCommand`: apply each decorator in list
order; the first error aborts and is wrapped with that decorator's type. -/
def decorateAll : List DecoratorF → CobraCmdM → CmdValM → Except String CobraCmdM
  | [], cmd, _ => .ok cmd
  | d :: rest, cmd, c =>
    match d.run cmd c with
    | .error e => .error (wrapDecErr d.tyName e)
    | .ok cmd1 => decorateAll rest cmd1 c

/-- `BuildCobraCommand` from `ecdysis.go`: start from a bare command
carrying the value's usage string, then run the decoration loop. A Go
`(nil, err)` return is the `.error` case. -/
def BuildCobraCommand (decs : List DecoratorF) (c : CmdValM) : Except String CobraCmdM :=
  decorateAll decs { use := c.usage } c

/-! ## Decorator-list customization (`ecdysis.go`: `New`, `WithDecorators`) -/

/-- A decorator value for the customization machinery: its dynamic Go type
and an instance identity (so two instances of one kind are distinguishable). -/
structure Dec where
  dtype : GoType
  id : Nat
deriving DecidableEq, Repr

/-- `getDecoratorType` from `ecdysis.go`: the type with pointers
dereferenced down to the underlying type. -/
def getDecoratorType (d : Dec) : GoType :=
  let rec strip : GoType → GoType
    | .ptrTo t => strip t
    | .named n => .named n
  strip d.dtype

/-- One iteration of the `WithDecorators` loop, as it transforms the list
contents: replace the first decorator of the same underlying type in place,
or append when none exists. -/
def withDecoratorsStep : List Dec → Dec → List Dec
  | [], d => [d]
  | x :: xs, d =>
    if getDecoratorType x = getDecoratorType d then d :: xs
    else x :: withDecoratorsStep xs d

/-! ## Run / pre-run hooks of the capability decorators (`decorators.go`)

Cobra hooks are modelled as functions from the printed-output log so far to
the extended log plus an outcome; `os.Exit` is the distinguished `exitR`
outcome, terminating the process rather than returning an error. -/

/-- Outcome of a run/pre-run hook: normal return, an error propagated to the
caller, or immediate process termination (`os.Exit`). -/
inductive RunRes where
  | okR
  | failR (msg : String)
  | exitR (code : Nat)
deriving DecidableEq, Repr

/-- A cobra `RunE`/`PreRunE` hook in the model. -/
abbrev RunHook : Type := List String → List String × RunRes

/-- Running a possibly-nil previous hook (`if old != nil`). -/
def runOld : Option RunHook → RunHook
  | none => fun out => (out, .okR)
  | some h => h

/-- Go `strings.TrimRight(input, "\r\n")`: drop trailing CR/LF characters.
Implemented on the character list so that it evaluates by reduction. -/
def trimRightCRLF (s : String) : String :=
  String.mk ((s.data.reverse.dropWhile fun c => c = '\r' ∨ c = '\n').reverse)

/-- The confirmation prompt printed by the confirm decorator's run hook. -/
def confirmMsg (wantInput : String) : String :=
  "To proceed, type \"" ++ wantInput ++ "\" or re-run this command with --force\n▸ "

/-- The run hook installed by `CommandWithConfirmDecorator.Decorate`: chain
the old hook; skip under `--force`/`--yolo`; otherwise prompt, read a line
from stdin (`stdinLine` is the read outcome), and abort with an error when
the trimmed input does not match the expected value. -/
def confirmRunE (old : Option RunHook) (force yolo : Bool) (wantInput : String)
    (stdinLine : Except String String) : RunHook := fun out =>
  match runOld old out with
  | (out1, .okR) =>
    if force || yolo then (out1, .okR)
    else
      let out2 := out1 ++ [confirmMsg wantInput]
      match stdinLine with
      | .error e => (out2, .failR ("failed to read user input: " ++ e))
      | .ok input =>
        if wantInput = trimRightCRLF input then (out2, .okR)
        else (out2, .failR "action aborted")
  | r => r

/-- The run hook installed by `CommandWithPromptDecorator.Decorate`: chain
the old hook; skip under `--force`/`--yolo` or the command's skip condition;
otherwise ask the command's prompt — when declined, print the message and
`os.Exit(1)`. `pmsg`/`pok` are the values returned by `v.Prompt()`. -/
def promptRunE (old : Option RunHook) (force yolo skip : Bool)
    (pmsg : String) (pok : Bool) : RunHook := fun out =>
  match runOld old out with
  | (out1, .okR) =>
    if force || yolo || skip then (out1, .okR)
    else if pok then (out1, .okR)
    else (out1 ++ [pmsg], .exitR 1)
  | r => r

/-- The run hook installed by `CommandWithExecuteDecorator.Decorate`: chain
the old hook, then invoke the command's work function. -/
def executeRunE (old : Option RunHook) (work : RunHook) : RunHook := fun out =>
  match runOld old out with
  | (out1, .okR) => work out1
  | r => r

/-- The deprecation notice `CommandWithDeprecatedDecorator` prints,
qualified by the parent command's name when the command is nested. -/
def depNoticeMsg (name : String) (parent : Option String) (depMsg : String) : String :=
  let c := match parent with
    | some p => p ++ " " ++ name
    | none => name
  "Command \"" ++ c ++ "\" is deprecated, " ++ depMsg ++ "\n"

/-- The pre-run hook installed by `CommandWithDeprecatedDecorator.Decorate`.
Faithful to the source: everything, including the printing of the notice,
sits inside the `if old != nil` branch; with no previous hook the function
returns nil without printing. `jsonChanged` models `cmd.Flags().Changed("json")`. -/
def deprecatedPreRunE (old : Option RunHook) (jsonChanged : Bool)
    (name : String) (parent : Option String) (depMsg : String) : RunHook := fun out =>
  match old with
  | none => (out, .okR)
  | some h =>
    match h out with
    | (out1, .okR) =>
      if jsonChanged then (out1, .okR)
      else (out1 ++ [depNoticeMsg name parent depMsg], .okR)
    | r => r

/-- The `UserConfig` consumed by `CommandWithParsingConfigDecorator`. -/
structure UserConfigM where
  pfx : String
  parsedIsPtr : Bool
  defaultConfig : RValue
  configPath : String
  dest : List (String × Value)

/-- The env key used by the parsing-config decorator's inline viper setup:
its key replacer only rewrites `.` (not `-`). -/
def mkEnvKeyDot (pfx key : String) : String :=
  ((pfx ++ "_" ++ key).toUpper).map fun c => if c = '.' then '_' else c

/-- Viper lookup for the decorator's inline instance (same precedence as
`ViperState.find`, with the dot-only env replacer). -/
def findDot (v : ViperState) (key : String) : Option Value :=
  let core :=
    match (v.env.lookup (mkEnvKeyDot v.envPfx key)).map Value.vStr with
    | some x => some x
    | none =>
      match v.config.lookup key with
      | some x => some x
      | none => v.defaults.lookup key
  match v.bound.find? (fun f => f.name = key) with
  | some f =>
    if f.changed then some f.value
    else
      match core with
      | some x => some x
      | none => some f.defValue
  | none => core

/-- The body of the pre-run hook installed by
`CommandWithParsingConfigDecorator.Decorate`: check `ParsedConfig` is a
pointer, set defaults, set up env handling, and load the config file — here
ANY `ReadInConfig` error, including a missing file, is returned as fatal
(there is no `os.IsNotExist` tolerance in this decorator). On success the
merged view is unmarshalled through the `ParsedConfig` pointer; the result
carries the written destination value. -/
def parsingConfigResolve (usrCfg : UserConfigM) (cmdFlags : List FlagB)
    (env : List (String × String)) (fsRead : String → ReadResult) :
    Except String (List (String × Value)) :=
  if !usrCfg.parsedIsPtr then .error "ParsedConfig must be a pointer"
  else
    let defaults := setDefaultsV [] usrCfg.defaultConfig
    match fsRead usrCfg.configPath with
    | .notExist e => .error ("fatal error config file: " ++ e)
    | .failed e => .error ("fatal error config file: " ++ e)
    | .okData d =>
      let v : ViperState :=
        { envPfx := usrCfg.pfx, defaults := defaults, config := d,
          bound := cmdFlags, env := env }
      .ok (usrCfg.dest.map fun p => (p.1, (findDot v p.1).getD p.2))

/-- The pre-run hook installed by `CommandWithParsingConfigDecorator.Decorate`:
chain the old hook, then run the inline resolution; its write-out happens
through the `ParsedConfig` pointer and is not part of the hook's return. -/
def parsingConfigPreRunE (old : Option RunHook) (usrCfg : UserConfigM)
    (cmdFlags : List FlagB) (env : List (String × String))
    (fsRead : String → ReadResult) : RunHook := fun out =>
  match runOld old out with
  | (out1, .okR) =>
    match parsingConfigResolve usrCfg cmdFlags env fsRead with
    | .error e => (out1, .failR e)
    | .ok _ => (out1, .okR)
  | r => r

/-! ## `New` and the package-level default decorator list (`ecdysis.go`)

To talk about mutation of the shared `DefaultDecorators` slice, slices are
modelled with an explicit store of backing arrays: a slice is a reference
into the store plus a length (or the nil slice). `make`+`copy` in `New`
allocates a fresh array, and Go's `append` on a full array allocates again;
arrays created on this code path always have capacity equal to their
length, so every append reallocates. -/

/-- The store of backing arrays; a reference is an index. -/
abbrev Store : Type := List (List Dec)

/-- A Go slice value: nil, or a backing-array reference plus a length. -/
inductive SliceV where
  | nilSlice
  | mk (ref : Nat) (len : Nat)
deriving DecidableEq, Repr

/-- Allocate a fresh backing array. -/
def storeAlloc (s : Store) (a : List Dec) : Store × Nat :=
  (s ++ [a], s.length)

/-- The list a slice views. -/
def sliceView (s : Store) : SliceV → List Dec
  | .nilSlice => []
  | .mk r len => ((s.get? r).getD []).take len

/-- One iteration of the `WithDecorators` loop against the store: find the
first decorator of the same underlying type and overwrite that array slot in
place, else append (which reallocates, as the array is at capacity). -/
def withDecoratorsHeap (s : Store) (e : SliceV) (d : Dec) : Store × SliceV :=
  match e with
  | .nilSlice =>
    let (s1, r) := storeAlloc s [d]
    (s1, .mk r 1)
  | .mk r len =>
    let arr := (s.get? r).getD []
    match (arr.take len).findIdx? (fun x => getDecoratorType x = getDecoratorType d) with
    | some i => (s.set r (arr.set i d), .mk r len)
    | none =>
      let (s1, r1) := storeAlloc s (arr.take len ++ [d])
      (s1, .mk r1 (len + 1))

/-- The options defined by the package: `WithoutDefaultDecorators` and
`WithDecorators`. -/
inductive OptM where
  | withoutDefaults
  | withDecs (ds : List Dec)

/-- Apply one option to the instance being constructed. -/
def applyOptM (se : Store × SliceV) (o : OptM) : Store × SliceV :=
  match o with
  | .withoutDefaults => (se.1, .nilSlice)
  | .withDecs ds => ds.foldl (fun p d => withDecoratorsHeap p.1 p.2 d) se

/-- `New` from `ecdysis.go`: allocate a fresh array, copy the
`DefaultDecorators` contents into it (`r0` is the reference of the
package-level backing array), then apply the options in order. -/
def NewM (s : Store) (r0 : Nat) (opts : List OptM) : Store × SliceV :=
  let defaults := (s.get? r0).getD []
  let (s1, r1) := storeAlloc s defaults
  opts.foldl applyOptM (s1, .mk r1 defaults.length)

/-- The package-level `DefaultDecorators` list, by Go type identity, in
declaration order. -/
def defaultDecoratorsM : List Dec :=
  [ { dtype := .named "ecdysis.CommandWithLoggerDecorator", id := 0 },
    { dtype := .named "ecdysis.CommandWithAliasesDecorator", id := 1 },
    { dtype := .named "ecdysis.CommandWithFlagsDecorator", id := 2 },
    { dtype := .named "ecdysis.CommandWithParsingConfigDecorator", id := 3 },
    { dtype := .named "ecdysis.CommandWithDocsDecorator", id := 4 },
    { dtype := .named "ecdysis.CommandWithHiddenDecorator", id := 5 },
    { dtype := .named "ecdysis.CommandWithSubCommandsDecorator", id := 6 },
    { dtype := .named "ecdysis.CommandWithDeprecatedDecorator", id := 7 },
    { dtype := .named "ecdysis.CommandWithArgsDecorator", id := 8 },
    { dtype := .named "ecdysis.CommandWithConfirmDecorator", id := 9 },
    { dtype := .named "ecdysis.CommandWithPromptDecorator", id := 10 },
    { dtype := .named "ecdysis.CommandWithExecuteDecorator", id := 11 } ]

/-! ## Claim-side (spec) definitions

The remaining definitions are the spec-facing sides of refinement claims:
they follow the spec's words and are compared against the source-derived
functions above. -/

mutual
/-- Spec side of C3, per field: a field carrying a `long` or `short` tag
yields exactly one descriptor; an untagged struct field contributes its
recursively built descriptors; every other untagged field yields nothing. -/
def specFieldFlags : RField → Except String (List Flag)
  | .mk tags val =>
    if hasTagL tags "short" || hasTagL tags "long" then
      match buildFlag tags val with
      | .error e => .error e
      | .ok fl => .ok [fl]
    else
      match val with
      | .strct gs => specBuildList gs
      | .base _ => .ok []
      | .ptr _ => .ok []

/-- Spec side of C3, whole struct: the per-field contributions concatenated
in field declaration order, so recursive descriptors are spliced in at the
embedding field's position. -/
def specBuildList : List RField → Except String (List Flag)
  | [] => .ok []
  | f :: rest =>
    match specFieldFlags f with
    | .error e => .error e
    | .ok xs =>
      match specBuildList rest with
      | .error e => .error e
      | .ok ys => .ok (xs ++ ys)
end

/-- Hypothesis of the amended C9: every field that carries a `long` or
`short` tag key carries at least one of them with a non-empty value
(recursively through untagged nested structs). -/
def fieldNamesOK : List RField → Bool
  | [] => true
  | (.mk tags val) :: rest =>
    (if hasTagL tags "short" || hasTagL tags "long" then
      !(tagGet tags "long" == "" && tagGet tags "short" == "")
    else
      match val with
      | .strct gs => fieldNamesOK gs
      | .base _ => true
      | .ptr _ => true)
    && fieldNamesOK rest

/-- The flags source of the spec's precedence order: the value of the
bound flag named `k`, only when the user actually supplied it. -/
def flagsSource (cmdFlags : List FlagB) (k : String) : Option Value :=
  match cmdFlags.find? (fun f => f.name = k) with
  | some f => if f.changed then some f.value else none
  | none => none

/-- The environment source: the environment variable derived from the key. -/
def envSource (envPfx : String) (env : List (String × String)) (k : String) :
    Option Value :=
  (env.lookup (mkEnvKey envPfx k)).map .vStr

/-- The config-file source: the decoded document at the effective path, when
the file exists and decodes. -/
def fileSource (cfg : ConfigM) (env : List (String × String))
    (fsRead : String → ReadResult) (k : String) : Option Value :=
  match fsRead (effectivePath cfg.envPfx cfg.path env) with
  | .okData d => d.lookup k
  | _ => none

/-- The defaults source: the key's value registered while walking the
defaults struct. -/
def defaultsSource (cfg : ConfigM) (k : String) : Option Value :=
  (setDefaultsV [] cfg.defaultValues).lookup k

/-- Spec side of C1: the value of the highest-precedence source that sets
the key, with flags over environment over file over defaults. -/
def specResolve (fl en fi de : Option Value) : Option Value :=
  match fl with
  | some x => some x
  | none =>
    match en with
    | some x => some x
    | none =>
      match fi with
      | some x => some x
      | none => de

/-! ## Concrete witness inputs -/

def c3fields : List RField :=
  [ .mk [("long", "author"), ("usage", "author name")] (.base (.vStr "")),
    .mk [] (.strct [ .mk [("short", "v"), ("persistent", "true")] (.base (.vBool false)) ]),
    .mk [] (.base (.vInt 7)) ]

def c3flags : List Flag :=
  [ { long := "author", short := "", usage := "author name", required := false,
      persistent := false, default := none, ptrVal := .base (.vStr ""),
      hidden := false },
    { long := "", short := "v", usage := "", required := false,
      persistent := true, default := none, ptrVal := .base (.vBool false),
      hidden := false } ]

def c9fields : List RField :=
  [ .mk [("long", "heat-level"), ("usage", "sets the heat level")] (.base (.vInt 5)),
    .mk [("short", "q")] (.base (.vBool false)) ]

def c9flag1 : Flag :=
  { long := "heat-level", short := "", usage := "sets the heat level",
    required := false, persistent := false, default := none,
    ptrVal := .base (.vInt 5), hidden := false }

def c9flag2 : Flag :=
  { long := "", short := "q", usage := "", required := false,
    persistent := false, default := none, ptrVal := .base (.vBool false),
    hidden := false }

def c4viper : ViperState :=
  { envPfx := "", defaults := [], config := [], bound := [], env := [] }

def c4cfg : ConfigM :=
  { envPfx := "APP", parsedType := .ptrTo (.named "cfgT"),
    defaultValuesType := .named "cfgT", defaultValues := .strct [],
    path := "a.yaml", dest := [] }

def c4usr : UserConfigM :=
  { pfx := "APP", parsedIsPtr := true, defaultConfig := .strct [],
    configPath := "a.yaml", dest := [] }

def c1cfg : ConfigM :=
  { envPfx := "APP", parsedType := .ptrTo (.named "cookingConfig"),
    defaultValuesType := .named "cookingConfig",
    defaultValues := .strct [.mk [("long", "heat-level")] (.base (.vInt 5))],
    path := "app.yaml", dest := [("heat-level", .vInt 5)] }

def c1flags : List FlagB :=
  [ { name := "heat-level", changed := true, value := .vInt 22, defValue := .vInt 5 } ]

def c1env : List (String × String) := [("APP_HEAT_LEVEL", "33")]

def c1fs : String → ReadResult := fun p =>
  if p = "app.yaml" then .okData [("heat-level", .vInt 11)] else .notExist "nf"

/-! ## Theorems -/

theorem decorateAll_append (xs ys : List DecoratorF) (cmd : CobraCmdM) (c : CmdValM) :
    decorateAll (xs ++ ys) cmd c =
      match decorateAll xs cmd c with
      | .error e => .error e
      | .ok m => decorateAll ys m c := by
  induction xs generalizing cmd with
  | nil => simp [decorateAll]
  | cons d rest ih =>
    simp only [List.cons_append, decorateAll]
    cases d.run cmd c with
    | error e => rfl
    | ok cmd1 => exact ih cmd1

/-- C2: `BuildCobraCommand` applies the decorators in list order; if a
decorator fails, the build aborts at once — the result does not depend on
the decorators after the failing one, no command is returned, and the error
wraps the failing decorator's type identity — and if every decorator
succeeds the built command object is returned without an error. -/
theorem buildCobraCommand_failfast_spec (decs pre post : List DecoratorF)
    (d : DecoratorF) (c : CmdValM) (cmd : CobraCmdM) (msg : String) :
    (decs = pre ++ d :: post →
      decorateAll pre { use := c.usage } c = .ok cmd →
      d.run cmd c = .error msg →
      BuildCobraCommand decs c = .error (wrapDecErr d.tyName msg))
    ∧ (decorateAll decs { use := c.usage } c = .ok cmd →
      BuildCobraCommand decs c = .ok cmd) := by
  constructor
  · intro hdecs hpre hrun
    subst hdecs
    unfold BuildCobraCommand
    rw [decorateAll_append, hpre]
    simp [decorateAll, hrun]
  · intro h
    unfold BuildCobraCommand
    exact h

theorem buildCobraCommand_failfast_witness :
    BuildCobraCommand
      [ { tyName := "ecdysis.CommandWithAliasesDecorator", run := fun cmd _ => .ok cmd },
        { tyName := "ecdysis.CommandWithFlagsDecorator", run := fun _ _ => .error "boom" },
        { tyName := "ecdysis.CommandWithExecuteDecorator", run := fun cmd _ => .ok cmd } ]
      { usage := "cook" }
      = .error "failed to decorate command with ecdysis.CommandWithFlagsDecorator: boom" :=
  (buildCobraCommand_failfast_spec _
    [ { tyName := "ecdysis.CommandWithAliasesDecorator", run := fun cmd _ => .ok cmd } ]
    [ { tyName := "ecdysis.CommandWithExecuteDecorator", run := fun cmd _ => .ok cmd } ]
    { tyName := "ecdysis.CommandWithFlagsDecorator", run := fun _ _ => .error "boom" }
    { usage := "cook" } { use := "cook" } "boom").1 rfl rfl rfl

/-- C5: one `WithDecorators` step replaces, in place, the first decorator
whose underlying type (pointers dereferenced) matches the new decorator's,
keeping the list length and the position; when no decorator of that type is
present the new one is appended at the end. -/
theorem withDecorators_replace_or_append (l : List Dec) (d : Dec) :
    withDecoratorsStep l d =
      match l.findIdx? (fun x => getDecoratorType x == getDecoratorType d) with
      | some i => l.set i d
      | none => l ++ [d] := by
  induction l with
  | nil => rfl
  | cons x xs ih =>
    by_cases h : getDecoratorType x = getDecoratorType d
    · simp [withDecoratorsStep, h, List.findIdx?_cons]
    · simp only [withDecoratorsStep, if_neg h, List.findIdx?_cons]
      have hb : (getDecoratorType x == getDecoratorType d) = false := by
        simp [h]
      rw [hb, ih]
      cases hfi : xs.findIdx? (fun y => getDecoratorType y == getDecoratorType d) with
      | none => simp [hfi]
      | some i => simp [hfi]

/-- C7: in the chained run hooks, a text-confirmation mismatch surfaces as
the "action aborted" error through normal propagation, and the command's
work function is never invoked (the outcome is the same for every work
hook); a declined yes/no prompt prints the prompt message and terminates
the process (`os.Exit(1)`) instead of returning an error. -/
theorem confirm_abort_prompt_exit (old oldP : Option RunHook)
    (out0 out1 outP outP1 : List String) (want input pmsg : String)
    (h1 : runOld old out0 = (out1, .okR))
    (h2 : ¬ want = trimRightCRLF input)
    (h3 : runOld oldP outP = (outP1, .okR)) :
    (∀ work : RunHook,
      executeRunE (some (confirmRunE old false false want (.ok input))) work out0
        = (out1 ++ [confirmMsg want], .failR "action aborted"))
    ∧ promptRunE oldP false false false pmsg false outP
        = (outP1 ++ [pmsg], .exitR 1) := by
  have hc : confirmRunE old false false want (.ok input) out0
      = (out1 ++ [confirmMsg want], .failR "action aborted") := by
    simp only [confirmRunE]
    rw [h1]
    simp [h2]
  constructor
  · intro work
    simp only [executeRunE, runOld, hc]
  · simp only [promptRunE]
    rw [h3]
    simp

theorem confirm_abort_prompt_exit_witness :
    (executeRunE (some (confirmRunE none false false "yes" (.ok "no\n")))
        (fun out => (out ++ ["executed"], .okR)) []
      = ([confirmMsg "yes"], .failR "action aborted"))
    ∧ promptRunE none false false false "prompt declined" false []
        = (["prompt declined"], .exitR 1) :=
  ⟨(confirm_abort_prompt_exit none none [] [] [] [] "yes" "no\n" "prompt declined"
      rfl (by decide) rfl).1 _,
   (confirm_abort_prompt_exit none none [] [] [] [] "yes" "no\n" "prompt declined"
      rfl (by decide) rfl).2⟩

/-- C8: evaluation of the deprecation decorator's pre-run hook. The claim
says a deprecation notice is printed unless a bypass flag is set; the code
only prints it when a PREVIOUS pre-run hook exists (`old != nil`): with no
prior hook, nothing is printed, contradicting the capability's own
documentation that the message "will be printed when the command is used".
With a prior hook the notice, qualified by the parent name, is printed. -/
theorem deprecated_notice_only_with_prior_hook :
    deprecatedPreRunE none false "sub" (some "root") "use new instead" [] = ([], .okR)
    ∧ deprecatedPreRunE (some (fun out => (out, .okR))) false "sub" (some "root")
        "use new instead" []
      = (["Command \"root sub\" is deprecated, use new instead\n"], .okR) :=
  ⟨rfl, rfl⟩

theorem buildFlag_ok_fields (tags : List (String × String)) (val : RValue)
    (fl : Flag) (h : buildFlag tags val = .ok fl) :
    fl.long = tagGet tags "long" ∧ fl.short = tagGet tags "short"
      ∧ fl.default = none := by
  unfold buildFlag at h
  repeat' split at h
  all_goals first
    | exact Except.noConfusion h
    | (injection h with h1; subst h1; exact ⟨rfl, rfl, rfl⟩)

theorem buildFlagsRecursive_eq_spec :
    (fields : List RField) → buildFlagsRecursive fields = specBuildList fields
  | [] => by simp [buildFlagsRecursive, specBuildList]
  | (.mk tags (.base v)) :: rest => by
    have ihr := buildFlagsRecursive_eq_spec rest
    simp only [buildFlagsRecursive, specBuildList, specFieldFlags]
    by_cases htag : (hasTagL tags "short" || hasTagL tags "long") = true
    · rw [if_pos htag, if_pos htag]
      cases buildFlag tags (RValue.base v) with
      | error e => rfl
      | ok fl =>
        rw [ihr]
        cases specBuildList rest <;> simp
    · rw [if_neg htag, if_neg htag, ihr]
      cases specBuildList rest <;> simp
  | (.mk tags (.ptr o)) :: rest => by
    have ihr := buildFlagsRecursive_eq_spec rest
    simp only [buildFlagsRecursive, specBuildList, specFieldFlags]
    by_cases htag : (hasTagL tags "short" || hasTagL tags "long") = true
    · rw [if_pos htag, if_pos htag]
      cases buildFlag tags (RValue.ptr o) with
      | error e => rfl
      | ok fl =>
        rw [ihr]
        cases specBuildList rest <;> simp
    · rw [if_neg htag, if_neg htag, ihr]
      cases specBuildList rest <;> simp
  | (.mk tags (.strct gs)) :: rest => by
    have ihr := buildFlagsRecursive_eq_spec rest
    have ihg := buildFlagsRecursive_eq_spec gs
    simp only [buildFlagsRecursive, specBuildList, specFieldFlags]
    by_cases htag : (hasTagL tags "short" || hasTagL tags "long") = true
    · rw [if_pos htag, if_pos htag]
      cases buildFlag tags (RValue.strct gs) with
      | error e => rfl
      | ok fl =>
        rw [ihr]
        cases specBuildList rest <;> simp
    · rw [if_neg htag, if_neg htag, ihg, ihr]

theorem buildFlagsRecursive_default_none :
    (fields : List RField) → (fs : List Flag) →
      buildFlagsRecursive fields = .ok fs → ∀ fl ∈ fs, fl.default = none
  | [], fs, h => by
    rw [buildFlagsRecursive] at h
    cases h
    intro fl hm
    cases hm
  | (.mk tags (.base v)) :: rest, fs, h => by
    rw [buildFlagsRecursive] at h
    by_cases htag : (hasTagL tags "short" || hasTagL tags "long") = true
    · rw [if_pos htag] at h
      cases hbf : buildFlag tags (RValue.base v) with
      | error e => rw [hbf] at h; cases h
      | ok fl0 =>
        rw [hbf] at h
        cases hr : buildFlagsRecursive rest with
        | error e => rw [hr] at h; cases h
        | ok fs0 =>
          rw [hr] at h
          cases h
          intro fl hm
          cases hm with
          | head => exact (buildFlag_ok_fields _ _ _ hbf).2.2
          | tail _ hm0 => exact buildFlagsRecursive_default_none rest fs0 hr fl hm0
    · rw [if_neg htag] at h
      exact buildFlagsRecursive_default_none rest fs h
  | (.mk tags (.ptr o)) :: rest, fs, h => by
    rw [buildFlagsRecursive] at h
    by_cases htag : (hasTagL tags "short" || hasTagL tags "long") = true
    · rw [if_pos htag] at h
      cases hbf : buildFlag tags (RValue.ptr o) with
      | error e => rw [hbf] at h; cases h
      | ok fl0 =>
        rw [hbf] at h
        cases hr : buildFlagsRecursive rest with
        | error e => rw [hr] at h; cases h
        | ok fs0 =>
          rw [hr] at h
          cases h
          intro fl hm
          cases hm with
          | head => exact (buildFlag_ok_fields _ _ _ hbf).2.2
          | tail _ hm0 => exact buildFlagsRecursive_default_none rest fs0 hr fl hm0
    · rw [if_neg htag] at h
      exact buildFlagsRecursive_default_none rest fs h
  | (.mk tags (.strct gs)) :: rest, fs, h => by
    rw [buildFlagsRecursive] at h
    by_cases htag : (hasTagL tags "short" || hasTagL tags "long") = true
    · rw [if_pos htag] at h
      cases hbf : buildFlag tags (RValue.strct gs) with
      | error e => rw [hbf] at h; cases h
      | ok fl0 =>
        rw [hbf] at h
        cases hr : buildFlagsRecursive rest with
        | error e => rw [hr] at h; cases h
        | ok fs0 =>
          rw [hr] at h
          cases h
          intro fl hm
          cases hm with
          | head => exact (buildFlag_ok_fields _ _ _ hbf).2.2
          | tail _ hm0 => exact buildFlagsRecursive_default_none rest fs0 hr fl hm0
    · rw [if_neg htag] at h
      cases hg : buildFlagsRecursive gs with
      | error e => rw [hg] at h; cases h
      | ok emb =>
        rw [hg] at h
        cases hr : buildFlagsRecursive rest with
        | error e => rw [hr] at h; cases h
        | ok fs0 =>
          rw [hr] at h
          cases h
          intro fl hm
          rcases List.mem_append.mp hm with hm0 | hm0
          · exact buildFlagsRecursive_default_none gs emb hg fl hm0
          · exact buildFlagsRecursive_default_none rest fs0 hr fl hm0

/-- C3: on a pointer to a struct mixing tagged and untagged fields,
`BuildFlags` returns exactly the per-field contributions concatenated in
declaration order — one descriptor per tagged field, the recursively built
descriptors of an untagged struct field spliced in at its position, nothing
for other untagged fields — and every returned descriptor's default is
unset. -/
theorem buildFlags_declaration_order (fields : List RField) (fs : List Flag)
    (h : BuildFlags (.ptr (some (.strct fields))) = .ok fs) :
    specBuildList fields = .ok fs ∧ ∀ fl ∈ fs, fl.default = none := by
  have hb : buildFlagsRecursive fields = .ok fs := h
  exact ⟨(buildFlagsRecursive_eq_spec fields).symm.trans hb,
    buildFlagsRecursive_default_none fields fs hb⟩

theorem buildFlags_declaration_order_witness :
    specBuildList c3fields = .ok c3flags ∧ ∀ fl ∈ c3flags, fl.default = none :=
  buildFlags_declaration_order c3fields c3flags
    (by simp [BuildFlags, c3fields, c3flags, buildFlagsRecursive, buildFlag,
          parseTagBool, hasTagL, tagGet, parseBoolGo, List.lookup])

/-- C9, counterexample: the builder checks only tag-key presence (`Lookup`),
so a field tagged with an empty `long` value produces a descriptor whose
long and short names are BOTH empty, contrary to the claimed invariant. -/
theorem buildFlags_empty_names_counterexample :
    (BuildFlags (.ptr (some (.strct [.mk [("long", "")] (.base (.vInt 0))])))).map
      (fun fs => fs.map fun fl => (fl.long, fl.short)) = .ok [("", "")] := by
  simp [BuildFlags, buildFlagsRecursive, buildFlag, parseTagBool, hasTagL,
    tagGet, Except.map, List.lookup]

theorem buildFlagsRecursive_names :
    (fields : List RField) → (fs : List Flag) →
      fieldNamesOK fields = true →
      buildFlagsRecursive fields = .ok fs →
      ∀ fl ∈ fs, fl.long ≠ "" ∨ fl.short ≠ ""
  | [], fs, _, h => by
    rw [buildFlagsRecursive] at h
    cases h
    intro fl hm
    cases hm
  | (.mk tags (.base v)) :: rest, fs, hn, h => by
    rw [buildFlagsRecursive] at h
    rw [fieldNamesOK, Bool.and_eq_true] at hn
    by_cases htag : (hasTagL tags "short" || hasTagL tags "long") = true
    · rw [if_pos htag] at h
      have hn1 : (!(tagGet tags "long" == "" && tagGet tags "short" == "")) = true := by
        have hx := hn.1
        rwa [if_pos htag] at hx
      cases hbf : buildFlag tags (RValue.base v) with
      | error e => rw [hbf] at h; cases h
      | ok fl0 =>
        rw [hbf] at h
        cases hr : buildFlagsRecursive rest with
        | error e => rw [hr] at h; cases h
        | ok fs0 =>
          rw [hr] at h
          cases h
          intro fl hm
          cases hm with
          | head =>
            have hfields := buildFlag_ok_fields _ _ _ hbf
            rw [hfields.1, hfields.2.1]
            simpa [not_and_or] using hn1
          | tail _ hm0 =>
            exact buildFlagsRecursive_names rest fs0 hn.2 hr fl hm0
    · rw [if_neg htag] at h
      exact buildFlagsRecursive_names rest fs hn.2 h
  | (.mk tags (.ptr o)) :: rest, fs, hn, h => by
    rw [buildFlagsRecursive] at h
    rw [fieldNamesOK, Bool.and_eq_true] at hn
    by_cases htag : (hasTagL tags "short" || hasTagL tags "long") = true
    · rw [if_pos htag] at h
      have hn1 : (!(tagGet tags "long" == "" && tagGet tags "short" == "")) = true := by
        have hx := hn.1
        rwa [if_pos htag] at hx
      cases hbf : buildFlag tags (RValue.ptr o) with
      | error e => rw [hbf] at h; cases h
      | ok fl0 =>
        rw [hbf] at h
        cases hr : buildFlagsRecursive rest with
        | error e => rw [hr] at h; cases h
        | ok fs0 =>
          rw [hr] at h
          cases h
          intro fl hm
          cases hm with
          | head =>
            have hfields := buildFlag_ok_fields _ _ _ hbf
            rw [hfields.1, hfields.2.1]
            simpa [not_and_or] using hn1
          | tail _ hm0 =>
            exact buildFlagsRecursive_names rest fs0 hn.2 hr fl hm0
    · rw [if_neg htag] at h
      exact buildFlagsRecursive_names rest fs hn.2 h
  | (.mk tags (.strct gs)) :: rest, fs, hn, h => by
    rw [buildFlagsRecursive] at h
    rw [fieldNamesOK, Bool.and_eq_true] at hn
    by_cases htag : (hasTagL tags "short" || hasTagL tags "long") = true
    · rw [if_pos htag] at h
      have hn1 : (!(tagGet tags "long" == "" && tagGet tags "short" == "")) = true := by
        have hx := hn.1
        rwa [if_pos htag] at hx
      cases hbf : buildFlag tags (RValue.strct gs) with
      | error e => rw [hbf] at h; cases h
      | ok fl0 =>
        rw [hbf] at h
        cases hr : buildFlagsRecursive rest with
        | error e => rw [hr] at h; cases h
        | ok fs0 =>
          rw [hr] at h
          cases h
          intro fl hm
          cases hm with
          | head =>
            have hfields := buildFlag_ok_fields _ _ _ hbf
            rw [hfields.1, hfields.2.1]
            simpa [not_and_or] using hn1
          | tail _ hm0 =>
            exact buildFlagsRecursive_names rest fs0 hn.2 hr fl hm0
    · rw [if_neg htag] at h
      have hng : fieldNamesOK gs = true := by
        have hx := hn.1
        rwa [if_neg htag] at hx
      cases hg : buildFlagsRecursive gs with
      | error e => rw [hg] at h; cases h
      | ok emb =>
        rw [hg] at h
        cases hr : buildFlagsRecursive rest with
        | error e => rw [hr] at h; cases h
        | ok fs0 =>
          rw [hr] at h
          cases h
          intro fl hm
          rcases List.mem_append.mp hm with hm0 | hm0
          · exact buildFlagsRecursive_names gs emb hng hg fl hm0
          · exact buildFlagsRecursive_names rest fs0 hn.2 hr fl hm0

/-- C9 (amended): the claimed invariant holds for every struct whose tagged
fields carry a non-empty `long` or `short` tag value: each emitted
descriptor then has a non-empty long or short name. (As stated the claim is
false: tag-key presence with an empty value still emits a descriptor, see
the counterexample.) -/
theorem buildFlags_nonempty_names (fields : List RField) (fs : List Flag)
    (hnames : fieldNamesOK fields = true)
    (h : BuildFlags (.ptr (some (.strct fields))) = .ok fs) :
    ∀ fl ∈ fs, fl.long ≠ "" ∨ fl.short ≠ "" :=
  buildFlagsRecursive_names fields fs hnames h

theorem buildFlags_nonempty_names_witness :
    (c9flag1.long ≠ "" ∨ c9flag1.short ≠ "")
    ∧ (c9flag2.long ≠ "" ∨ c9flag2.short ≠ "") :=
  have h := buildFlags_nonempty_names c9fields [c9flag1, c9flag2]
    (by simp [fieldNamesOK, c9fields, hasTagL, tagGet, List.lookup])
    (by simp [BuildFlags, c9fields, c9flag1, c9flag2, buildFlagsRecursive,
          buildFlag, parseTagBool, hasTagL, tagGet, List.lookup])
  ⟨h c9flag1 (by simp), h c9flag2 (by simp)⟩

/-- C6: `ParseConfig` returns the configuration-shape error whenever
`cfg.Parsed` is not a pointer, or the pointed-to type differs from the type
of `cfg.DefaultValues`; the check precedes any default registration or merge
work, and on such an error the destination value is returned unmodified. -/
theorem parseConfig_shape_guard (cfg : ConfigM) (cmdFlags : List FlagB)
    (env : List (String × String)) (fsRead : String → ReadResult) :
    (∀ n, cfg.parsedType = .named n →
      ParseConfig cfg cmdFlags env fsRead = (some "parsed must be a pointer", cfg.dest))
    ∧ (∀ t, cfg.parsedType = .ptrTo t → t ≠ cfg.defaultValuesType →
      ParseConfig cfg cmdFlags env fsRead
        = (some "parsed and defaultValues must be the same type", cfg.dest)) := by
  constructor
  · intro n hn
    simp [ParseConfig, hn]
  · intro t ht hne
    simp [ParseConfig, ht, hne]

theorem parseConfig_shape_guard_witness :
    ParseConfig
      { envPfx := "APP", parsedType := .named "cookingConfig",
        defaultValuesType := .named "cookingConfig", defaultValues := .strct [],
        path := "c.yaml", dest := [("heat-level", .vInt 5)] }
      [] [] (fun _ => .notExist "nf")
      = (some "parsed must be a pointer", [("heat-level", .vInt 5)])
    ∧ ParseConfig
      { envPfx := "APP", parsedType := .ptrTo (.named "otherConfig"),
        defaultValuesType := .named "cookingConfig", defaultValues := .strct [],
        path := "c.yaml", dest := [("heat-level", .vInt 5)] }
      [] [] (fun _ => .notExist "nf")
      = (some "parsed and defaultValues must be the same type",
          [("heat-level", .vInt 5)]) :=
  ⟨(parseConfig_shape_guard _ [] [] (fun _ => .notExist "nf")).1 "cookingConfig" rfl,
   (parseConfig_shape_guard _ [] [] (fun _ => .notExist "nf")).2
     (.named "otherConfig") rfl (by decide)⟩

/-- C4, counterexample: a configuration resolution through the parsing-config
decorator's pre-run hook FAILS when the config file merely does not exist,
although the claim says a missing file is tolerated. -/
theorem parsingConfig_missing_file_fails :
    parsingConfigPreRunE none
      { pfx := "APP", parsedIsPtr := true, defaultConfig := .strct [],
        configPath := "absent.yaml", dest := [] }
      [] []
      (fun _ => .notExist "open absent.yaml: no such file or directory") []
      = ([], .failR "fatal error config file: open absent.yaml: no such file or directory") := by
  simp [parsingConfigPreRunE, runOld, parsingConfigResolve]

/-- C4 (amended): resolution through `ParseConfig`/`bindViperConfig`
tolerates a missing config file — it succeeds and continues with only
defaults, environment and flags — while a malformed file or other read
error is fatal; the parsing-config decorator's inline pre-run resolution,
however, fails on ANY config-file read error, including a missing file. -/
theorem configFile_error_handling (v : ViperState) (cfg : ConfigM)
    (cmdFlags : List FlagB) (env : List (String × String))
    (fsRead : String → ReadResult) (usrCfg : UserConfigM) (m e mm : String)
    (hptr : usrCfg.parsedIsPtr = true) :
    (fsRead (effectivePath cfg.envPfx cfg.path env) = .notExist m →
      bindViperConfig v cfg cmdFlags env fsRead
        = .ok { v with envPfx := cfg.envPfx, env := env, bound := cmdFlags })
    ∧ (cfg.parsedType = .ptrTo cfg.defaultValuesType →
      fsRead (effectivePath cfg.envPfx cfg.path env) = .notExist m →
      (ParseConfig cfg cmdFlags env fsRead).1 = none)
    ∧ (fsRead (effectivePath cfg.envPfx cfg.path env) = .failed e →
      bindViperConfig v cfg cmdFlags env fsRead
        = .error ("fatal error config file: " ++ e))
    ∧ (fsRead usrCfg.configPath = .notExist mm →
      parsingConfigResolve usrCfg cmdFlags env fsRead
        = .error ("fatal error config file: " ++ mm)) := by
  refine ⟨fun h => ?_, fun hty h => ?_, fun h => ?_, fun h => ?_⟩
  · simp [bindViperConfig, h]
  · simp [ParseConfig, hty, bindViperConfig, h]
  · simp [bindViperConfig, h]
  · simp [parsingConfigResolve, hptr, h]

theorem configFile_error_handling_witness :
    (bindViperConfig c4viper c4cfg [] [] (fun _ => .notExist "nf")
      = .ok { c4viper with envPfx := c4cfg.envPfx, env := [], bound := [] })
    ∧ (ParseConfig c4cfg [] [] (fun _ => .notExist "nf")).1 = none
    ∧ (bindViperConfig c4viper c4cfg [] [] (fun _ => .failed "yaml: unmarshal errors")
      = .error ("fatal error config file: " ++ "yaml: unmarshal errors"))
    ∧ (parsingConfigResolve c4usr [] [] (fun _ => .notExist "nf")
      = .error ("fatal error config file: " ++ "nf")) :=
  ⟨(configFile_error_handling c4viper c4cfg [] [] (fun _ => .notExist "nf") c4usr
      "nf" "x" "nf" rfl).1 rfl,
   (configFile_error_handling c4viper c4cfg [] [] (fun _ => .notExist "nf") c4usr
      "nf" "x" "nf" rfl).2.1 rfl rfl,
   (configFile_error_handling c4viper c4cfg [] []
      (fun _ => .failed "yaml: unmarshal errors") c4usr
      "nf" "yaml: unmarshal errors" "nf" rfl).2.2.1 rfl,
   (configFile_error_handling c4viper c4cfg [] [] (fun _ => .notExist "nf") c4usr
      "nf" "x" "nf" rfl).2.2.2 rfl⟩

theorem lookup_map_resolve (l : List (String × Value)) (g : String → Option Value)
    (k : String) (x xv : Value) (h : l.lookup k = some x) (hg : g k = some xv) :
    (l.map fun p => (p.1, (g p.1).getD p.2)).lookup k = some xv := by
  induction l with
  | nil => cases h
  | cons p rest ih =>
    obtain ⟨k1, v1⟩ := p
    by_cases hk : k = k1
    · subst hk
      simp [List.lookup, hg]
    · have hkb : (k == k1) = false := by simp [hk]
      rw [List.lookup, hkb] at h
      simp only [List.map, List.lookup, hkb]
      exact ih h

theorem find_spec_aux (pfx : String) (defaults cfgd : List (String × Value))
    (bound : List FlagB) (env : List (String × String)) (k : String)
    (hset : specResolve (flagsSource bound k) (envSource pfx env k)
        (cfgd.lookup k) (defaults.lookup k) ≠ none) :
    ViperState.find (mkViper pfx defaults cfgd bound env) k
      = specResolve (flagsSource bound k) (envSource pfx env k)
        (cfgd.lookup k) (defaults.lookup k) := by
  cases hb : List.find? (fun f => decide (f.name = k)) bound with
  | none =>
    cases he : List.lookup (mkEnvKey pfx k) env with
    | some s =>
      simp [ViperState.find, findCore, flagsSource, mkViper, envVal, envSource,
        specResolve, hb, he]
    | none =>
      cases hc : List.lookup k cfgd with
      | some x =>
        simp [ViperState.find, findCore, flagsSource, mkViper, envVal, envSource,
          specResolve, hb, he, hc]
      | none =>
        simp [ViperState.find, findCore, flagsSource, mkViper, envVal, envSource,
          specResolve, hb, he, hc]
  | some f =>
    cases hch : f.changed with
    | true =>
      simp [ViperState.find, findCore, flagsSource, mkViper, envVal, envSource,
        specResolve, hb, hch]
    | false =>
      cases he : List.lookup (mkEnvKey pfx k) env with
      | some s =>
        simp [ViperState.find, findCore, flagsSource, mkViper, envVal, envSource,
          specResolve, hb, hch, he]
      | none =>
        cases hc : List.lookup k cfgd with
        | some x =>
          simp [ViperState.find, findCore, flagsSource, mkViper, envVal, envSource,
            specResolve, hb, hch, he, hc]
        | none =>
          cases hd : List.lookup k defaults with
          | some x =>
            simp [ViperState.find, findCore, flagsSource, mkViper, envVal, envSource,
              specResolve, hb, hch, he, hc, hd]
          | none =>
            exact absurd
              (by simp [flagsSource, envSource, specResolve, hb, hch, he, hc, hd])
              hset

theorem ParseConfig_named (cfg : ConfigM) (cmdFlags : List FlagB)
    (env : List (String × String)) (fsRead : String → ReadResult) (n : String)
    (hpt : cfg.parsedType = .named n) :
    ParseConfig cfg cmdFlags env fsRead
      = (some "parsed must be a pointer", cfg.dest) := by
  unfold ParseConfig
  rw [hpt]

theorem ParseConfig_mismatch (cfg : ConfigM) (cmdFlags : List FlagB)
    (env : List (String × String)) (fsRead : String → ReadResult) (t : GoType)
    (hpt : cfg.parsedType = .ptrTo t) (hne : t ≠ cfg.defaultValuesType) :
    ParseConfig cfg cmdFlags env fsRead
      = (some "parsed and defaultValues must be the same type", cfg.dest) := by
  unfold ParseConfig
  rw [hpt]
  simp [hne]

theorem ParseConfig_run (cfg : ConfigM) (cmdFlags : List FlagB)
    (env : List (String × String)) (fsRead : String → ReadResult) (t : GoType)
    (hpt : cfg.parsedType = .ptrTo t) (hty : t = cfg.defaultValuesType) :
    ParseConfig cfg cmdFlags env fsRead =
      match bindViperConfig
          { envPfx := "", defaults := setDefaultsV [] cfg.defaultValues,
            config := [], bound := [], env := [] } cfg cmdFlags env fsRead with
      | .error e => (some ("error parsing config: " ++ e), cfg.dest)
      | .ok v => (none, unmarshalDest v cfg.dest) := by
  unfold ParseConfig
  rw [hpt]
  simp [hty]

theorem bindViperConfig_notExist (v : ViperState) (cfg : ConfigM)
    (cmdFlags : List FlagB) (env : List (String × String))
    (fsRead : String → ReadResult) (m : String)
    (h : fsRead (effectivePath cfg.envPfx cfg.path env) = .notExist m) :
    bindViperConfig v cfg cmdFlags env fsRead
      = .ok { v with envPfx := cfg.envPfx, env := env, bound := cmdFlags } := by
  simp [bindViperConfig, h]

theorem bindViperConfig_okData (v : ViperState) (cfg : ConfigM)
    (cmdFlags : List FlagB) (env : List (String × String))
    (fsRead : String → ReadResult) (d : List (String × Value))
    (h : fsRead (effectivePath cfg.envPfx cfg.path env) = .okData d) :
    bindViperConfig v cfg cmdFlags env fsRead
      = .ok { v with envPfx := cfg.envPfx, env := env, config := d,
                     bound := cmdFlags } := by
  simp [bindViperConfig, h]

theorem bindViperConfig_failed (v : ViperState) (cfg : ConfigM)
    (cmdFlags : List FlagB) (env : List (String × String))
    (fsRead : String → ReadResult) (e : String)
    (h : fsRead (effectivePath cfg.envPfx cfg.path env) = .failed e) :
    bindViperConfig v cfg cmdFlags env fsRead
      = .error ("fatal error config file: " ++ e) := by
  simp [bindViperConfig, h]

/-- C1: whenever `ParseConfig` succeeds, every destination key that is set
in at least one of the four sources resolves to the value of the
highest-precedence source that sets it — user-supplied flags over
environment variables over the config file over the registered defaults —
so a key set in a single source resolves to that source's value. -/
theorem parseConfig_precedence (cfg : ConfigM) (cmdFlags : List FlagB)
    (env : List (String × String)) (fsRead : String → ReadResult)
    (k : String) (old : Value)
    (hok : (ParseConfig cfg cmdFlags env fsRead).1 = none)
    (hdest : cfg.dest.lookup k = some old)
    (hset : specResolve (flagsSource cmdFlags k) (envSource cfg.envPfx env k)
        (fileSource cfg env fsRead k) (defaultsSource cfg k) ≠ none) :
    (ParseConfig cfg cmdFlags env fsRead).2.lookup k
      = specResolve (flagsSource cmdFlags k) (envSource cfg.envPfx env k)
        (fileSource cfg env fsRead k) (defaultsSource cfg k) := by
  obtain ⟨xv, hxv⟩ : ∃ xv, specResolve (flagsSource cmdFlags k)
      (envSource cfg.envPfx env k) (fileSource cfg env fsRead k)
      (defaultsSource cfg k) = some xv := by
    cases hs : specResolve (flagsSource cmdFlags k) (envSource cfg.envPfx env k)
        (fileSource cfg env fsRead k) (defaultsSource cfg k) with
    | none => exact absurd hs hset
    | some xv => exact ⟨xv, rfl⟩
  cases hpt : cfg.parsedType with
  | named n =>
    rw [ParseConfig_named cfg cmdFlags env fsRead n hpt] at hok
    cases hok
  | ptrTo t =>
    by_cases hty : t = cfg.defaultValuesType
    · have hrun := ParseConfig_run cfg cmdFlags env fsRead t hpt hty
      cases hfs : fsRead (effectivePath cfg.envPfx cfg.path env) with
      | failed e =>
        rw [hrun, bindViperConfig_failed _ cfg cmdFlags env fsRead e hfs] at hok
        cases hok
      | notExist m =>
        rw [hrun, bindViperConfig_notExist _ cfg cmdFlags env fsRead m hfs]
        have hfi : fileSource cfg env fsRead k = none := by
          simp [fileSource, hfs]
        rw [hfi] at hxv
        have hset2 : specResolve (flagsSource cmdFlags k)
            (envSource cfg.envPfx env k) none (defaultsSource cfg k) ≠ none := by
          rw [hxv]
          simp
        have haux := find_spec_aux cfg.envPfx (setDefaultsV [] cfg.defaultValues)
          [] cmdFlags env k hset2
        have hfind : ViperState.find
            (mkViper cfg.envPfx (setDefaultsV [] cfg.defaultValues) [] cmdFlags env)
            k = some xv := haux.trans hxv
        dsimp only [unmarshalDest]
        rw [hfi, hxv]
        exact lookup_map_resolve cfg.dest _ k old xv hdest hfind
      | okData d =>
        rw [hrun, bindViperConfig_okData _ cfg cmdFlags env fsRead d hfs]
        have hfi : fileSource cfg env fsRead k = d.lookup k := by
          simp [fileSource, hfs]
        rw [hfi] at hxv
        have hset2 : specResolve (flagsSource cmdFlags k)
            (envSource cfg.envPfx env k) (List.lookup k d)
            (defaultsSource cfg k) ≠ none := by
          rw [hxv]
          simp
        have haux := find_spec_aux cfg.envPfx (setDefaultsV [] cfg.defaultValues)
          d cmdFlags env k hset2
        have hfind : ViperState.find
            (mkViper cfg.envPfx (setDefaultsV [] cfg.defaultValues) d cmdFlags env)
            k = some xv := haux.trans hxv
        dsimp only [unmarshalDest]
        rw [hfi, hxv]
        exact lookup_map_resolve cfg.dest _ k old xv hdest hfind
    · rw [ParseConfig_mismatch cfg cmdFlags env fsRead t hpt hty] at hok
      cases hok

theorem parseConfig_precedence_witness :
    (ParseConfig c1cfg c1flags c1env c1fs).2.lookup "heat-level"
      = some (.vInt 22) :=
  (parseConfig_precedence c1cfg c1flags c1env c1fs "heat-level" (.vInt 5)
      rfl rfl (by decide)).trans (by decide)

theorem withDecoratorsHeap_preserves (s0 : Store) (r0 : Nat) (st : Store)
    (e : SliceV) (d : Dec)
    (h0 : r0 < s0.length)
    (hlen : s0.length ≤ st.length)
    (hget : st.get? r0 = s0.get? r0)
    (href : ∀ r len, e = .mk r len → s0.length ≤ r) :
    s0.length ≤ (withDecoratorsHeap st e d).1.length
    ∧ (withDecoratorsHeap st e d).1.get? r0 = s0.get? r0
    ∧ ∀ r len, (withDecoratorsHeap st e d).2 = .mk r len → s0.length ≤ r := by
  have hr0 : r0 < st.length := lt_of_lt_of_le h0 hlen
  cases e with
  | nilSlice =>
    refine ⟨?_, ?_, ?_⟩
    · simp only [withDecoratorsHeap, storeAlloc, List.length_append]
      omega
    · simp only [withDecoratorsHeap, storeAlloc]
      rw [List.get?_append hr0]
      exact hget
    · intro r len h
      simp only [withDecoratorsHeap, storeAlloc] at h
      cases h
      omega
  | mk r len =>
    have hrr : s0.length ≤ r := href r len rfl
    simp only [withDecoratorsHeap]
    cases hidx : (((st.get? r).getD []).take len).findIdx?
        (fun x => decide (getDecoratorType x = getDecoratorType d)) with
    | some i =>
      refine ⟨?_, ?_, ?_⟩
      · simp only [List.length_set]
        exact hlen
      · have hne : r ≠ r0 := by omega
        rw [List.get?_set_ne _ _ hne]
        exact hget
      · intro r1 len1 h
        cases h
        exact hrr
    | none =>
      refine ⟨?_, ?_, ?_⟩
      · simp only [storeAlloc, List.length_append]
        omega
      · simp only [storeAlloc]
        rw [List.get?_append hr0]
        exact hget
      · intro r1 len1 h
        simp only [storeAlloc] at h
        cases h
        omega

theorem withDecsFold_preserves (s0 : Store) (r0 : Nat) (h0 : r0 < s0.length) :
    ∀ (ds : List Dec) (st : Store) (e : SliceV),
      s0.length ≤ st.length → st.get? r0 = s0.get? r0 →
      (∀ r len, e = .mk r len → s0.length ≤ r) →
      s0.length ≤ (ds.foldl (fun p d => withDecoratorsHeap p.1 p.2 d) (st, e)).1.length
      ∧ (ds.foldl (fun p d => withDecoratorsHeap p.1 p.2 d) (st, e)).1.get? r0
          = s0.get? r0
      ∧ ∀ r len,
          (ds.foldl (fun p d => withDecoratorsHeap p.1 p.2 d) (st, e)).2 = .mk r len →
          s0.length ≤ r
  | [], st, e, hlen, hget, href => ⟨hlen, hget, href⟩
  | d :: ds, st, e, hlen, hget, href => by
    have hstep := withDecoratorsHeap_preserves s0 r0 st e d h0 hlen hget href
    simp only [List.foldl_cons]
    exact withDecsFold_preserves s0 r0 h0 ds (withDecoratorsHeap st e d).1
      (withDecoratorsHeap st e d).2 hstep.1 hstep.2.1 hstep.2.2

theorem optsFold_preserves (s0 : Store) (r0 : Nat) (h0 : r0 < s0.length) :
    ∀ (opts : List OptM) (st : Store) (e : SliceV),
      s0.length ≤ st.length → st.get? r0 = s0.get? r0 →
      (∀ r len, e = .mk r len → s0.length ≤ r) →
      s0.length ≤ (opts.foldl applyOptM (st, e)).1.length
      ∧ (opts.foldl applyOptM (st, e)).1.get? r0 = s0.get? r0
      ∧ ∀ r len, (opts.foldl applyOptM (st, e)).2 = .mk r len → s0.length ≤ r
  | [], st, e, hlen, hget, href => ⟨hlen, hget, href⟩
  | o :: opts, st, e, hlen, hget, href => by
    simp only [List.foldl_cons]
    cases o with
    | withoutDefaults =>
      exact optsFold_preserves s0 r0 h0 opts st .nilSlice hlen hget
        (by intro r len h; cases h)
    | withDecs ds =>
      have hstep := withDecsFold_preserves s0 r0 h0 ds st e hlen hget href
      exact optsFold_preserves s0 r0 h0 opts _ _ hstep.1 hstep.2.1 hstep.2.2

/-- C10: `New` never mutates the package-level `DefaultDecorators` backing
array: it copies the contents into a freshly allocated array, and every
option — `WithDecorators` replacements and appends, `WithoutDefaultDecorators`
— only touches the instance's own (always freshly allocated) arrays, so
after `New` returns the store still holds the same decorators in the same
order at the `DefaultDecorators` reference. -/
theorem new_preserves_defaultDecorators (s : Store) (r0 : Nat) (opts : List OptM)
    (h : r0 < s.length) :
    (NewM s r0 opts).1.get? r0 = s.get? r0 := by
  unfold NewM storeAlloc
  have hres := optsFold_preserves s r0 h opts (s ++ [(s.get? r0).getD []])
    (.mk s.length ((s.get? r0).getD []).length)
    (by simp)
    (by rw [List.get?_append h])
    (by intro r len hh; cases hh; exact le_refl _)
  exact hres.2.1

theorem new_preserves_defaultDecorators_witness :
    (NewM [defaultDecoratorsM] 0
        [ .withDecs [ { dtype := .ptrTo (.named "ecdysis.CommandWithDocsDecorator"),
                        id := 99 },
                      { dtype := .named "custom.TelemetryDecorator", id := 100 } ],
          .withoutDefaults,
          .withDecs [ { dtype := .named "custom.OtherDecorator", id := 101 } ] ]).1.get? 0
      = some defaultDecoratorsM :=
  (new_preserves_defaultDecorators [defaultDecoratorsM] 0
    [ .withDecs [ { dtype := .ptrTo (.named "ecdysis.CommandWithDocsDecorator"),
                    id := 99 },
                  { dtype := .named "custom.TelemetryDecorator", id := 100 } ],
      .withoutDefaults,
      .withDecs [ { dtype := .named "custom.OtherDecorator", id := 101 } ] ]
    (by decide)).trans rfl

end Ecdysis
